import Mathlib

/-!
Verification development for the airtable Go client library.

The development shallowly embeds the two source files of the repository:
the reflection-based field mapper (Get, handleStruct, handleBool,
handleInt, handleFloat, handleString, handleSlice, handleInterface),
the transport layer (checkSetup, makeURL, checkErrorResponse,
RequestBytes) and the resource facade (Resource, Get).

Go interface values decoded from JSON are one of: nil, bool, float64,
string, list of values, string-keyed map of values.  They are embedded
as the inductive Json below, with JSON numbers as rationals (Go decodes
every JSON number as float64; the claims under study concern coercion
and truncation behaviour, which the rationals model exactly on all
inputs the tests exercise).  A missing map key and an explicit JSON
null both decode to a nil Go interface value, so both are Json.null.
-/

namespace Airtable

/-- Untyped JSON value as decoded into a Go interface value. -/
inductive Json where
  | null : Json
  | bool (b : Bool) : Json
  | num (q : ℚ) : Json
  | str (s : String) : Json
  | arr (elems : List Json) : Json
  | obj (entries : List (String × Json)) : Json

/-- Mapping failures: the Go handlers panic with a PARSE ERROR message
for failed coercions and an UNHANDLED CASE message for field kinds the
switch does not cover. -/
inductive MapError where
  | parse (msg : String) : MapError
  | unhandled (msg : String) : MapError
deriving DecidableEq

/-- A value stored in a destination record slot. -/
inductive Value where
  | bool (b : Bool) : Value
  | int (n : ℤ) : Value
  | float (q : ℚ) : Value
  | str (s : String) : Value
  | structV (fields : List Value) : Value
  | slice (elems : List Value) : Value
  | iface (j : Json) : Value

/-- A custom parse hook: the SelfParse method a nested struct type may
declare.  It receives the raw untyped value and produces the whole
value of the slot (or fails, modelling a panic inside the hook). -/
def Hook : Type := Json → Except MapError Value

mutual
/-- Declared kind of a destination slot, as seen through reflect.Kind
in the source: Bool, Int, Float64, String, Struct, Slice, Interface.
A struct kind carries its field list and the optional SelfParse hook
attached to the struct type. -/
inductive Kind where
  | boolK : Kind
  | intK : Kind
  | floatK : Kind
  | strK : Kind
  | structK (fields : List Field) (hook : Option Hook) : Kind
  | sliceK (elem : Kind) : Kind
  | ifaceK : Kind

/-- A declared field of a record shape: its Go name, the optional
alias declared with the from struct tag, and its kind. -/
inductive Field where
  | mk (name : String) (fromTag : Option String) (kind : Kind) : Field
end

/-- Go name of a declared field. -/
def Field.name : Field → String
  | .mk n _ _ => n

/-- The optional from struct tag of a declared field. -/
def Field.fromTag : Field → Option String
  | .mk _ t _ => t

/-- Declared kind of a field. -/
def Field.kind : Field → Kind
  | .mk _ _ k => k

/-- External lookup key of a field, as computed identically in Get and
in handleStruct: the from tag when declared, the field name otherwise. -/
def resolveKey (f : Field) : String :=
  match f.fromTag with
  | some a => a
  | none => f.name

/-- Lookup in a decoded JSON object (Go map indexing; JSON decoding
produces at most one entry per key, so first-match lookup is exact). -/
def lookupObj (m : List (String × Json)) (key : String) : Option Json :=
  match m with
  | [] => none
  | (k, v) :: rest => if k = key then some v else lookupObj rest key

/-- The PARSE ERROR message of the handlers, naming the offending
column and the expected kind. -/
def parseMsg (key kindName : String) : String :=
  "PARSE ERROR: could not parse column " ++ key ++ " as " ++ kindName

/-- The UNHANDLED CASE panic message of the dispatch switches. -/
def unhandledMsg (key : String) : String :=
  "UNHANDLED CASE: " ++ key

/-- Truncation of a rational toward zero, the behaviour of the Go
conversion int64(n) on a float64 n. -/
def ratTrunc (q : ℚ) : ℤ :=
  if q < 0 then -((-q).floor) else q.floor

/-- handleString: assert the value is a string, else panic. -/
def handleString (key : String) (v : Json) : Except MapError Value :=
  match v with
  | .str s => .ok (.str s)
  | _ => .error (.parse (parseMsg key "string"))

/-- handleInt: assert the value is a number (JSON numbers decode as
float64) and convert with int64(n), else panic. -/
def handleInt (key : String) (v : Json) : Except MapError Value :=
  match v with
  | .num q => .ok (.int (ratTrunc q))
  | _ => .error (.parse (parseMsg key "int"))

/-- handleFloat: assert the value is a number, else panic.  The panic
message in the source says int here as well. -/
def handleFloat (key : String) (v : Json) : Except MapError Value :=
  match v with
  | .num q => .ok (.float q)
  | _ => .error (.parse (parseMsg key "int"))

/-- handleBool: assert the value is a boolean, else panic. -/
def handleBool (key : String) (v : Json) : Except MapError Value :=
  match v with
  | .bool b => .ok (.bool b)
  | _ => .error (.parse (parseMsg key "bool"))

/-- handleInterface: assign the raw untyped value verbatim. -/
def handleInterface (_key : String) (v : Json) : Except MapError Value :=
  .ok (.iface v)

mutual
/-- Zero value of a kind: what a freshly allocated destination slot
holds before mapping (Go zero values; a nil slice and a nil interface
are the empty list and Json.null respectively). -/
def zeroValue : Kind → Value
  | .boolK => .bool false
  | .intK => .int 0
  | .floatK => .float 0
  | .strK => .str ""
  | .structK fs _ => .structV (zeroValues fs)
  | .sliceK _ => .slice []
  | .ifaceK => .iface .null

/-- Zero values of a field list, in declaration order. -/
def zeroValues : List Field → List Value
  | [] => []
  | .mk _ _ k :: fs => zeroValue k :: zeroValues fs
end

/-- Current sub-slot values of a struct-valued slot. -/
def curFields : Value → List Value
  | .structV vs => vs
  | _ => []

mutual
/-- The dispatch switch shared by handleStruct and handleSlice: it
covers Struct, Bool, Int, Float64, String and Slice, and panics
UNHANDLED CASE for every other kind (in particular Interface, which
only the top-level switch in Get covers). -/
def dispatchInner (key : String) (k : Kind) (cur : Value) (v : Json) :
    Except MapError Value :=
  match k with
  | .boolK => handleBool key v
  | .intK => handleInt key v
  | .floatK => handleFloat key v
  | .strK => handleString key v
  | .structK fs hook => handleStruct key fs hook cur v
  | .sliceK ek => handleSlice key ek cur v
  | .ifaceK => .error (.unhandled (unhandledMsg key))
termination_by (sizeOf k, 3, 0)

/-- handleStruct: if the struct type declares the SelfParse hook, call
it on the raw value and use its outcome verbatim; otherwise assert the
value is a string-keyed map and map every declared field of the nested
shape against it.  The inner loop has no nil guard: an absent key is
dispatched as a nil value. -/
def handleStruct (key : String) (fs : List Field) (hook : Option Hook)
    (cur : Value) (v : Json) : Except MapError Value :=
  match hook with
  | some h => h v
  | none =>
    match v with
    | .obj m =>
      match mapInnerFields fs (curFields cur) m with
      | .ok vs => .ok (.structV vs)
      | .error e => .error e
    | _ => .error (.parse (parseMsg key "struct"))
termination_by (sizeOf fs, 2, 0)

/-- The per-field loop of handleStruct: resolve the key, read the map
entry (nil when absent) and dispatch on the field kind.  The first
panic aborts the whole pass. -/
def mapInnerFields (fs : List Field) (curs : List Value)
    (m : List (String × Json)) : Except MapError (List Value) :=
  match fs with
  | [] => .ok []
  | .mk n t k :: rest =>
    match dispatchInner (resolveKey (.mk n t k)) k
        (curs.headD (zeroValue k))
        ((lookupObj m (resolveKey (.mk n t k))).getD .null) with
    | .error e => .error e
    | .ok v' =>
      match mapInnerFields rest curs.tail m with
      | .error e => .error e
      | .ok tl => .ok (v' :: tl)
termination_by (sizeOf fs, 1, 0)

/-- handleSlice: assert the value is an array, allocate a destination
slice of the same length (reflect.MakeSlice, so elements start at the
zero value) and map each element with the element kind. -/
def handleSlice (key : String) (ek : Kind) (_cur : Value) (v : Json) :
    Except MapError Value :=
  match v with
  | .arr xs =>
    match mapSliceElems key ek xs with
    | .ok ys => .ok (.slice ys)
    | .error e => .error e
  | _ => .error (.parse (parseMsg key "slice"))
termination_by (1 + sizeOf ek, 2, 0)

/-- The element loop of handleSlice. -/
def mapSliceElems (key : String) (ek : Kind) (xs : List Json) :
    Except MapError (List Value) :=
  match xs with
  | [] => .ok []
  | x :: rest =>
    match dispatchInner key ek (zeroValue ek) x with
    | .error e => .error e
    | .ok v' =>
      match mapSliceElems key ek rest with
      | .error e => .error e
      | .ok tl => .ok (v' :: tl)
termination_by (1 + sizeOf ek, 1, sizeOf xs)
end

/-- The top-level switch of Get: identical to the inner dispatch except
that it also covers Interface fields via handleInterface. -/
def dispatchTop (key : String) (k : Kind) (cur : Value) (v : Json) :
    Except MapError Value :=
  match k with
  | .ifaceK => handleInterface key v
  | _ => dispatchInner key k cur v

/-- The per-field loop of Get over the declared fields of the record
shape: resolve the key, and only when the fields map holds a non-nil
value for it (present and not JSON null) dispatch on the field kind;
otherwise the field keeps its current value. -/
def mapRecordFields (fs : List Field) (curs : List Value)
    (m : List (String × Json)) : Except MapError (List Value) :=
  match fs with
  | [] => .ok []
  | f :: rest =>
    let cur := curs.headD (zeroValue f.kind)
    match lookupObj m (resolveKey f) with
    | none =>
      match mapRecordFields rest curs.tail m with
      | .error e => .error e
      | .ok tl => .ok (cur :: tl)
    | some .null =>
      match mapRecordFields rest curs.tail m with
      | .error e => .error e
      | .ok tl => .ok (cur :: tl)
    | some v =>
      match dispatchTop (resolveKey f) f.kind cur v with
      | .error e => .error e
      | .ok v' =>
        match mapRecordFields rest curs.tail m with
        | .error e => .error e
        | .ok tl => .ok (v' :: tl)

/-!  Transport layer.

The Client of the newer source file carries APIKey, BaseID, Version,
RootURL and an HTTP client pointer; the pointer is embedded as a
presence flag, with the behaviour of the underlying transport supplied
separately as a function from requests to responses.  A response body
is embedded by its parse status: either not valid JSON, or the JSON
value the bytes parse to; this is exactly the information
json.Unmarshal consumes.  Real-time effects (the package level rate
limiter and its environment toggle) are outside the model.  -/

/-- Client: connection and credential configuration. -/
structure Client where
  APIKey : String
  BaseID : String
  Version : String
  RootURL : String
  hasHTTPClient : Bool
deriving DecidableEq

/-- Default root URL. -/
def defaultRootURL : String := "https://api.airtable.com"

/-- Default API version segment. -/
def defaultVersion : String := "v0"

/-- checkSetup of the newer source file: panic when BaseID, APIKey or
the HTTP client is missing (modelled as an error result, with the
client unchanged since the panic fires before any assignment), then
fill empty Version and RootURL with the defaults in place. -/
def checkSetup (c : Client) : Except String Client :=
  if c.BaseID = "" then .error "airtable: Client missing BaseID"
  else if c.APIKey = "" then .error "airtable: Client missing APIKey"
  else if c.hasHTTPClient = false then .error "airtable: missing HTTP client"
  else .ok { c with
    Version := if c.Version = "" then defaultVersion else c.Version,
    RootURL := if c.RootURL = "" then defaultRootURL else c.RootURL }

/-- checkSetup of the older source file: returns ErrClientSetupError
instead of panicking and has no HTTP client check; the same default
filling happens in place. -/
def checkSetupOld (c : Client) : Except String Client :=
  if c.BaseID = "" then .error "Client missing BaseID"
  else if c.APIKey = "" then .error "Client missing APIKey"
  else .ok { c with
    Version := if c.Version = "" then defaultVersion else c.Version,
    RootURL := if c.RootURL = "" then defaultRootURL else c.RootURL }

/-- makeURL: root/version/baseID/resource?query. -/
def makeURL (c : Client) (resource : String) (q : String) : String :=
  c.RootURL ++ "/" ++ c.Version ++ "/" ++ c.BaseID ++ "/" ++ resource ++ "?" ++ q

/-- A response body abstracted by its JSON parse status. -/
inductive RawBody where
  | notJson (raw : String) : RawBody
  | json (j : Json) : RawBody

/-- The error envelope of the API, the errorResponse struct of the
source flattened: Error.Type and Error.Message. -/
structure errorResponse where
  type : String
  message : String
deriving DecidableEq

/-- json.Unmarshal of a JSON value into a Go string-typed struct
field: missing and null leave the zero value, a string is taken, any
other value is an UnmarshalTypeError. -/
def decodeStringField (m : List (String × Json)) (key : String) :
    Except String String :=
  match lookupObj m key with
  | none => .ok ""
  | some .null => .ok ""
  | some (.str s) => .ok s
  | some _ => .error ("json: cannot unmarshal value into Go string field " ++ key)

/-- json.Unmarshal of the response bytes into the errorResponse
struct: null and object-without-error decode to the zero envelope,
non-object documents are an UnmarshalTypeError, and an error member
must itself be an object whose type and message members decode as
strings. -/
def decodeErrorResponse (j : Json) : Except String errorResponse :=
  match j with
  | .null => .ok ⟨"", ""⟩
  | .obj kvs =>
    match lookupObj kvs "error" with
    | none => .ok ⟨"", ""⟩
    | some .null => .ok ⟨"", ""⟩
    | some (.obj e) =>
      match decodeStringField e "type" with
      | .error msg => .error msg
      | .ok t =>
        match decodeStringField e "message" with
        | .error msg => .error msg
        | .ok msg => .ok ⟨t, msg⟩
    | some _ => .error "json: cannot unmarshal value into Go struct field error"
  | _ => .error "json: cannot unmarshal value into Go value of type errorResponse"

/-- The error outcomes of RequestBytes.  setup models the checkSetup
panic; httpErr covers transport failures (DNS, connection, body read);
jsonDecode is the unmarshal failure of the error envelope probe;
apiRequest is ErrClientRequestError, carrying the Message of the
error envelope. -/
inductive ReqError where
  | setup (msg : String) : ReqError
  | httpErr (msg : String) : ReqError
  | jsonDecode (msg : String) : ReqError
  | apiRequest (msg : String) : ReqError
deriving DecidableEq

/-- checkErrorResponse: unmarshal the body into errorResponse,
surfacing the unmarshal error on failure; a non-empty Error.Type means
the service returned an error envelope and yields
ErrClientRequestError with its Message; otherwise no error. -/
def checkErrorResponse (b : RawBody) : Option ReqError :=
  match b with
  | .notJson _ => some (.jsonDecode "invalid character in response body")
  | .json j =>
    match decodeErrorResponse j with
    | .error msg => some (.jsonDecode msg)
    | .ok env => if env.type ≠ "" then some (.apiRequest env.message) else none

/-- One HTTP request as dispatched to the HTTP client. -/
structure HttpRequest where
  method : String
  url : String
  authHeader : String
deriving DecidableEq

/-- Outcome of RequestBytes: the client (checkSetup mutates it in
place), the trace of requests given to the HTTP client, the returned
bytes and the returned error.  The Go function returns both a byte
slice and an error; on an API error envelope both are non-nil. -/
structure RBResult where
  client : Client
  calls : List HttpRequest
  bytes : Option RawBody
  err : Option ReqError

/-- RequestBytes: check the setup (panicking before any network
activity when it fails), build the URL and the bearer header, perform
exactly one GET through the HTTP client, read the body and probe it
for an error envelope; an envelope or unmarshal failure is returned
together with the raw bytes.  The httpDo argument is the behaviour of
the underlying HTTP client including the body read; the rate limiter
only delays dispatch and is not modelled. -/
def RequestBytes (c : Client) (endpoint : String) (q : String)
    (httpDo : HttpRequest → Except String RawBody) : RBResult :=
  match checkSetup c with
  | .error msg => ⟨c, [], none, some (.setup msg)⟩
  | .ok c2 =>
    let req : HttpRequest :=
      ⟨"GET", makeURL c2 endpoint q, "Bearer " ++ c2.APIKey⟩
    match httpDo req with
    | .error msg => ⟨c2, [req], none, some (.httpErr msg)⟩
    | .ok body =>
      match checkErrorResponse body with
      | some e => ⟨c2, [req], some body, some e⟩
      | none => ⟨c2, [req], some body, none⟩

/-!  Resource facade. -/

/-- GetResponse: id, fields map, createdTime. -/
structure GetResponse where
  id : String
  fields : List (String × Json)
  createdTime : String

/-- Decode the createdTime member of the envelope and assemble the
response. -/
def decodeCreated (kvs : List (String × Json)) (i : String)
    (m : List (String × Json)) : Except String GetResponse :=
  match decodeStringField kvs "createdTime" with
  | .error msg => .error msg
  | .ok t => .ok ⟨i, m, t⟩

/-- json.Unmarshal of the response bytes into GetResponse: null and
missing members leave zero values (empty strings, nil map), the
document and the fields member must otherwise be objects, and id and
createdTime must be strings. -/
def decodeGetResponse (j : Json) : Except String GetResponse :=
  match j with
  | .null => .ok ⟨"", [], ""⟩
  | .obj kvs =>
    match decodeStringField kvs "id" with
    | .error msg => .error msg
    | .ok i =>
      match lookupObj kvs "fields" with
      | none => decodeCreated kvs i []
      | some .null => decodeCreated kvs i []
      | some (.obj m) => decodeCreated kvs i m
      | some _ => .error "json: cannot unmarshal value into Go struct field fields"
  | _ => .error "json: cannot unmarshal value into Go value of type GetResponse"

/-- Resource: binds the endpoint name, the shape of the destination
record type (obtained through reflection in the source) and the
destination record storage itself.  The source stores a pointer to the
caller record in the resource, so the storage written by Get lives in
the resource and persists across calls; here it is the record field. -/
structure Resource where
  name : String
  shape : List Field
  record : List Value

/-- The error outcomes of Resource.Get. -/
inductive GetError where
  | req (e : ReqError) : GetError
  | decode (msg : String) : GetError
  | mapErr (e : MapError) : GetError

/-- Outcome of Resource.Get: the resource (its record storage is
mutated in place by the field mapping), the client, the request trace
and the response or error. -/
structure GetResult where
  resource : Resource
  client : Client
  calls : List HttpRequest
  out : Except GetError GetResponse

/-- Get on a resource: request name/id, unmarshal the envelope, run
the field-mapping loop over the declared fields of the record shape
against the envelope fields map, writing the mapped values into the
record storage held by the resource.  On a RequestBytes error the
bytes are discarded and the error returned.  A mapping panic aborts
the pass; the partial writes the aborted Go loop leaves behind are not
modelled (the claims under study concern completed passes). -/
def Resource.Get (r : Resource) (c : Client) (id : String) (q : String)
    (httpDo : HttpRequest → Except String RawBody) : GetResult :=
  let rb := RequestBytes c (r.name ++ "/" ++ id) q httpDo
  match rb.err with
  | some e => ⟨r, rb.client, rb.calls, .error (.req e)⟩
  | none =>
    match rb.bytes with
    | none => ⟨r, rb.client, rb.calls, .error (.req (.httpErr "no body"))⟩
    | some (.notJson _) =>
      ⟨r, rb.client, rb.calls, .error (.decode "invalid character in response body")⟩
    | some (.json j) =>
      match decodeGetResponse j with
      | .error msg => ⟨r, rb.client, rb.calls, .error (.decode msg)⟩
      | .ok resp =>
        match mapRecordFields r.shape r.record resp.fields with
        | .error e => ⟨r, rb.client, rb.calls, .error (.mapErr e)⟩
        | .ok vs => ⟨{ r with record := vs }, rb.client, rb.calls, .ok resp⟩

/-!  Concrete fixtures used by witnesses and counterexamples.  Rational
literals are given as explicit fractions because the claims about
integer coercion exercise truncation. -/

/-- The rational five halves. -/
def fiveHalvesQ : ℚ := ⟨5, 2, by decide, by decide⟩

/-- A well-configured client (credentials of the test scenario). -/
def clientOK : Client := ⟨"key123", "appXXX", "", "", true⟩

/-- Bridge between the Batteries floor on rationals and the Mathlib
floor (the FloorRing instance on the rationals is built from the
former). -/
theorem ratFloor_eq_intFloor (q : ℚ) : q.floor = ⌊q⌋ := rfl

/-- ratTrunc is floor for nonnegative arguments and ceiling for
negative ones: truncation toward zero. -/
theorem ratTrunc_eq_floor_or_ceil (q : ℚ) :
    (0 ≤ q → ratTrunc q = ⌊q⌋) ∧ (q < 0 → ratTrunc q = ⌈q⌉) := by
  constructor
  · intro h
    rw [ratTrunc, if_neg (not_lt.mpr h), ratFloor_eq_intFloor]
  · intro h
    rw [ratTrunc, if_pos h, ratFloor_eq_intFloor, Int.floor_neg, neg_neg]

/-- C2: when the nested struct type declares the SelfParse hook, the
mapper uses the hook outcome on the raw untyped value verbatim: the
result does not depend on the field list of the nested shape or on the
current slot value, and the structural path (object assertion and
per-field recursion) is never taken, even when the raw value is not a
JSON object. -/
theorem hook_overrides_structural_path (key : String) (fs : List Field)
    (h : Hook) (cur : Value) (v : Json) :
    handleStruct key fs (some h) cur v = h v := by
  simp [handleStruct]

/-- C6: an integer destination field accepts exactly the numeric JSON
values: a number (decoded as floating point) is truncated toward zero
(the result is at most one away from the number, no larger in
magnitude, and of the same sign), and every non-numeric value is a
coercion error naming the field as an int. -/
theorem intCoercion_correct (key : String) (cur : Value) :
    (∀ q : ℚ,
      dispatchInner key .intK cur (.num q) = .ok (.int (ratTrunc q)) ∧
      |((ratTrunc q : ℤ) : ℚ)| ≤ |q| ∧ |q| - 1 < |((ratTrunc q : ℤ) : ℚ)| ∧
      (0 ≤ q → 0 ≤ ratTrunc q) ∧ (q ≤ 0 → ratTrunc q ≤ 0))
    ∧ (∀ v : Json, (∀ q : ℚ, v ≠ .num q) →
        dispatchInner key .intK cur v = .error (.parse (parseMsg key "int"))) := by
  constructor
  · intro q
    refine ⟨by simp [dispatchInner, handleInt], ?_, ?_, ?_, ?_⟩
    · rcases lt_or_le q 0 with hq | hq
      · rw [(ratTrunc_eq_floor_or_ceil q).2 hq]
        have h1 : ((⌈q⌉ : ℤ) : ℚ) ≤ 0 := by
          exact_mod_cast Int.ceil_le.mpr (by exact_mod_cast hq.le)
        have h2 : q ≤ ((⌈q⌉ : ℤ) : ℚ) := Int.le_ceil q
        rw [abs_of_nonpos h1, abs_of_nonpos hq.le]
        linarith
      · rw [(ratTrunc_eq_floor_or_ceil q).1 hq]
        have h1 : (0 : ℚ) ≤ ((⌊q⌋ : ℤ) : ℚ) := by
          exact_mod_cast Int.floor_nonneg.mpr hq
        rw [abs_of_nonneg h1, abs_of_nonneg hq]
        exact Int.floor_le q
    · rcases lt_or_le q 0 with hq | hq
      · rw [(ratTrunc_eq_floor_or_ceil q).2 hq]
        have h1 : ((⌈q⌉ : ℤ) : ℚ) ≤ 0 := by
          exact_mod_cast Int.ceil_le.mpr (by exact_mod_cast hq.le)
        have h2 : ((⌈q⌉ : ℤ) : ℚ) < q + 1 := Int.ceil_lt_add_one q
        rw [abs_of_nonpos h1, abs_of_nonpos hq.le]
        linarith
      · rw [(ratTrunc_eq_floor_or_ceil q).1 hq]
        have h1 : (0 : ℚ) ≤ ((⌊q⌋ : ℤ) : ℚ) := by
          exact_mod_cast Int.floor_nonneg.mpr hq
        rw [abs_of_nonneg h1, abs_of_nonneg hq]
        exact Int.sub_one_lt_floor q
    · intro hq
      rw [(ratTrunc_eq_floor_or_ceil q).1 hq]
      exact Int.floor_nonneg.mpr hq
    · intro hq
      rcases lt_or_eq_of_le hq with hq2 | hq2
      · rw [(ratTrunc_eq_floor_or_ceil q).2 hq2]
        exact Int.ceil_le.mpr (by exact_mod_cast hq)
      · rw [hq2, (ratTrunc_eq_floor_or_ceil 0).1 le_rfl]
        simp
  · intro v hv
    cases v with
    | num q => exact absurd rfl (hv q)
    | null => simp [dispatchInner, handleInt]
    | bool b => simp [dispatchInner, handleInt]
    | str s => simp [dispatchInner, handleInt]
    | arr xs => simp [dispatchInner, handleInt]
    | obj kvs => simp [dispatchInner, handleInt]

/-- Witness for C6 at concrete inputs: 5/2 truncates to 2, and a
string under an integer field is the int coercion error. -/
theorem intCoercion_correct_witness :
    dispatchInner "Rating" .intK (.int 0) (.num fiveHalvesQ) = .ok (.int 2) ∧
    dispatchInner "Rating" .intK (.int 0) (.str "five") =
      .error (.parse (parseMsg "Rating" "int")) := by
  constructor
  · exact ((intCoercion_correct "Rating" (.int 0)).1 fiveHalvesQ).1.trans
      (by rw [show ratTrunc fiveHalvesQ = 2 from by decide])
  · exact (intCoercion_correct "Rating" (.int 0)).2 (.str "five")
      (fun q hq => Json.noConfusion hq)

/-- A successful element loop produces exactly one mapped value per
array entry, each obtained by dispatching the element kind on the
corresponding entry over a zero-valued slot. -/
theorem mapSliceElems_ok (key : String) (ek : Kind) :
    ∀ (xs : List Json) (ys : List Value),
      mapSliceElems key ek xs = .ok ys →
      ys.length = xs.length ∧
      ∀ i (hx : i < xs.length) (hy : i < ys.length),
        dispatchInner key ek (zeroValue ek) (xs.get ⟨i, hx⟩) =
          .ok (ys.get ⟨i, hy⟩) := by
  intro xs
  induction xs with
  | nil =>
    intro ys h
    rw [mapSliceElems] at h
    cases h
    exact ⟨rfl, fun i hx => absurd hx (by simp)⟩
  | cons x rest ih =>
    intro ys h
    rw [mapSliceElems] at h
    cases hd : dispatchInner key ek (zeroValue ek) x with
    | error e => rw [hd] at h; exact Except.noConfusion h
    | ok v2 =>
      rw [hd] at h
      cases ht : mapSliceElems key ek rest with
      | error e => rw [ht] at h; exact Except.noConfusion h
      | ok tl =>
        rw [ht] at h
        cases h
        obtain ⟨hlen, helem⟩ := ih tl ht
        refine ⟨by simp [hlen], ?_⟩
        intro i hx hy
        cases i with
        | zero => exact hd
        | succ n =>
          exact helem n (by simpa using hx) (by simpa using hy)

/-- C5: a sequence destination field requires a JSON array; on an
array of N entries a successful mapping yields a destination sequence
of length exactly N whose entries are each mapped independently by
dispatching the declared element kind on the corresponding array
entry, and every non-array value is a coercion error naming the
field as a slice. -/
theorem sliceMapping_correct (key : String) (ek : Kind) (cur : Value) :
    (∀ (xs : List Json) (w : Value),
      handleSlice key ek cur (.arr xs) = .ok w →
      ∃ ys, w = .slice ys ∧ ys.length = xs.length ∧
        ∀ i (hx : i < xs.length) (hy : i < ys.length),
          dispatchInner key ek (zeroValue ek) (xs.get ⟨i, hx⟩) =
            .ok (ys.get ⟨i, hy⟩))
    ∧ (∀ v : Json, (∀ xs, v ≠ .arr xs) →
        handleSlice key ek cur v = .error (.parse (parseMsg key "slice"))) := by
  constructor
  · intro xs w h
    rw [handleSlice] at h
    cases ht : mapSliceElems key ek xs with
    | error e => rw [ht] at h; exact Except.noConfusion h
    | ok ys =>
      rw [ht] at h
      cases h
      obtain ⟨hlen, helem⟩ := mapSliceElems_ok key ek xs ys ht
      exact ⟨ys, rfl, hlen, helem⟩
  · intro v hv
    cases v with
    | arr xs => exact absurd rfl (hv xs)
    | null => simp [handleSlice]
    | bool b => simp [handleSlice]
    | num q => simp [handleSlice]
    | str s => simp [handleSlice]
    | obj kvs => simp [handleSlice]

/-- Witness for C5 at concrete inputs: a two-entry string array maps
to a two-entry sequence with both entries mapped, and a string value
under a sequence field is the slice coercion error. -/
theorem sliceMapping_correct_witness :
    (∃ ys, Value.slice [Value.str "cat", Value.str "dog"] = .slice ys ∧
      ys.length = [Json.str "cat", Json.str "dog"].length ∧
      ∀ i (hx : i < [Json.str "cat", Json.str "dog"].length)
        (hy : i < ys.length),
        dispatchInner "Animals" .strK (zeroValue .strK)
            ([Json.str "cat", Json.str "dog"].get ⟨i, hx⟩) =
          .ok (ys.get ⟨i, hy⟩))
    ∧ handleSlice "Animals" .strK (.slice []) (.str "oops") =
        .error (.parse (parseMsg "Animals" "slice")) := by
  constructor
  · exact (sliceMapping_correct "Animals" .strK (.slice [])).1
      [Json.str "cat", Json.str "dog"]
      (Value.slice [Value.str "cat", Value.str "dog"])
      (by simp [handleSlice, mapSliceElems, dispatchInner, handleString, zeroValue])
  · exact (sliceMapping_correct "Animals" .strK (.slice [])).2 (.str "oops")
      (fun xs h => Json.noConfusion h)

/-- The inner shape of the C1 counterexample: a struct with a single
string field named B and no parse hook. -/
def innerShapeB : Kind := .structK [.mk "B" none .strK] none

/-- Counterexample to C1 as stated: a destination record with one
nested structure field A of shape innerShapeB, mapped from a fields
map whose inner object is empty (so the inner key B is absent).  The
claim asserts the mapping succeeds and leaves B at its zero value, but
the inner loop of handleStruct has no nil guard, dispatches the
missing key as a nil value into handleString and the whole mapping
fails with the string coercion panic for B. -/
theorem nestedMissingKey_counterexample :
    mapRecordFields [.mk "A" none innerShapeB] [zeroValue innerShapeB]
      [("A", .obj [])] =
    .error (.parse (parseMsg "B" "string")) := by
  simp [mapRecordFields, dispatchTop, dispatchInner, handleStruct,
    mapInnerFields, handleString, resolveKey, Field.fromTag, Field.name,
    Field.kind, lookupObj, curFields, zeroValue, zeroValues, innerShapeB]

/-- C1 amended: absent or explicitly-null keys are tolerated only at
the top level of the record, where the per-field loop of Get skips
them and the field keeps its current (zero) value; inside a nested
structure the loop dispatches an absent inner key as a nil value, so a
missing inner key of string kind makes the mapping fail with the
string coercion error naming that inner field instead of leaving it at
its zero value. -/
theorem missingKeys_toleratedOnlyAtTopLevel :
    (∀ (fs : List Field) (curs : List Value) (m : List (String × Json)),
      (∀ f ∈ fs, lookupObj m (resolveKey f) = none ∨
        lookupObj m (resolveKey f) = some .null) →
      curs.length = fs.length →
      mapRecordFields fs curs m = .ok curs)
    ∧ (∀ (key b : String) (m : List (String × Json)) (cur : Value),
        lookupObj m b = none →
        handleStruct key [.mk b none .strK] none cur (.obj m) =
          .error (.parse (parseMsg b "string"))) := by
  constructor
  · intro fs
    induction fs with
    | nil =>
      intro curs m _ hlen
      cases curs with
      | nil => rw [mapRecordFields]
      | cons c cs => simp at hlen
    | cons f rest ih =>
      intro curs m hmem hlen
      cases curs with
      | nil => simp at hlen
      | cons c cs =>
        have hrest : mapRecordFields rest cs m = .ok cs :=
          ih cs m (fun g hg => hmem g (List.mem_cons_of_mem f hg))
            (by simpa using hlen)
        rcases hmem f (List.mem_cons_self f rest) with hf | hf <;>
          simp [mapRecordFields, hf, hrest]
  · intro key b m cur hb
    simp [handleStruct, mapInnerFields, dispatchInner, handleString,
      resolveKey, Field.fromTag, Field.name, Field.kind, curFields, hb]

/-- Witness for the amended C1 at concrete inputs: a top-level string
field whose key is absent keeps its zero value and the mapping
succeeds, while the same absence inside a nested structure is the
string coercion error for the inner field. -/
theorem missingKeys_toleratedOnlyAtTopLevel_witness :
    mapRecordFields [.mk "Name" none .strK] [.str ""]
      [("Other", .str "x")] = .ok [.str ""] ∧
    handleStruct "A" [.mk "B" none .strK] none (.structV [.str ""])
      (.obj [("C", .str "x")]) = .error (.parse (parseMsg "B" "string")) := by
  constructor
  · exact missingKeys_toleratedOnlyAtTopLevel.1 [.mk "Name" none .strK]
      [.str ""] [("Other", .str "x")]
      (by
        intro f hf
        rw [List.mem_singleton] at hf
        subst hf
        exact Or.inl rfl)
      rfl
  · exact missingKeys_toleratedOnlyAtTopLevel.2 "A" "B" [("C", .str "x")]
      (.structV [.str ""]) rfl

/-- The top-level loop consults the fields map only at the resolved
key of each declared field: two maps agreeing there map identically. -/
theorem mapRecordFields_congr (fs : List Field) :
    ∀ (curs : List Value) (m m2 : List (String × Json)),
      (∀ f ∈ fs, lookupObj m (resolveKey f) = lookupObj m2 (resolveKey f)) →
      mapRecordFields fs curs m = mapRecordFields fs curs m2 := by
  induction fs with
  | nil => intro curs m m2 _; rw [mapRecordFields, mapRecordFields]
  | cons f rest ih =>
    intro curs m m2 hagree
    have hrest := ih curs.tail m m2
      (fun g hg => hagree g (List.mem_cons_of_mem f hg))
    rw [mapRecordFields]
    conv_rhs => rw [mapRecordFields]
    rw [← hagree f (List.mem_cons_self f rest), hrest]

/-- The inner loop of handleStruct likewise consults the inner object
only at the resolved key of each declared inner field. -/
theorem mapInnerFields_congr (fs : List Field) :
    ∀ (curs : List Value) (m m2 : List (String × Json)),
      (∀ f ∈ fs, lookupObj m (resolveKey f) = lookupObj m2 (resolveKey f)) →
      mapInnerFields fs curs m = mapInnerFields fs curs m2 := by
  induction fs with
  | nil => intro curs m m2 _; rw [mapInnerFields, mapInnerFields]
  | cons f rest ih =>
    intro curs m m2 hagree
    have hrest := ih curs.tail m m2
      (fun g hg => hagree g (List.mem_cons_of_mem f hg))
    cases f with
    | mk n t k =>
      rw [mapInnerFields]
      conv_rhs => rw [mapInnerFields]
      rw [← hagree (.mk n t k) (List.mem_cons_self _ rest), hrest]

/-- C7: at every nesting level the external lookup key of a declared
field is its alias tag when one is declared and its own name
otherwise, and both the top-level loop of Get and the inner loop of
handleStruct consult the fields map only at that key. -/
theorem externalKey_isAliasOrName :
    (∀ (n a : String) (k : Kind), resolveKey (.mk n (some a) k) = a)
    ∧ (∀ (n : String) (k : Kind), resolveKey (.mk n none k) = n)
    ∧ (∀ (fs : List Field) (curs : List Value) (m m2 : List (String × Json)),
        (∀ f ∈ fs, lookupObj m (resolveKey f) = lookupObj m2 (resolveKey f)) →
        mapRecordFields fs curs m = mapRecordFields fs curs m2)
    ∧ (∀ (fs : List Field) (curs : List Value) (m m2 : List (String × Json)),
        (∀ f ∈ fs, lookupObj m (resolveKey f) = lookupObj m2 (resolveKey f)) →
        mapInnerFields fs curs m = mapInnerFields fs curs m2) :=
  ⟨fun _ _ _ => rfl, fun _ _ => rfl, mapRecordFields_congr, mapInnerFields_congr⟩

/-- Witness for C7 at concrete inputs: a field named When aliased to
the key with a question mark is read from the aliased key only — a map
that also binds the plain name to a decoy maps identically. -/
theorem externalKey_isAliasOrName_witness :
    resolveKey (.mk "When" (some "WhenQ") .strK) = "WhenQ" ∧
    resolveKey (.mk "Name" none .strK) = "Name" ∧
    mapRecordFields [.mk "When" (some "WhenQ") .strK] [.str ""]
        [("WhenQ", .str "x")] =
      mapRecordFields [.mk "When" (some "WhenQ") .strK] [.str ""]
        [("WhenQ", .str "x"), ("When", .str "decoy")] := by
  refine ⟨externalKey_isAliasOrName.1 "When" "WhenQ" .strK,
    externalKey_isAliasOrName.2.1 "Name" .strK,
    externalKey_isAliasOrName.2.2.1 [.mk "When" (some "WhenQ") .strK]
      [.str ""] _ _ ?_⟩
  intro f hf
  rw [List.mem_singleton] at hf
  subst hf
  rfl

/-- C4: a client with an empty API key or an empty base identifier
fails fast: the returned error is the setup kind, which is distinct
from the API request kind and from the transport kind, no bytes are
returned, and the underlying HTTP client is never invoked (the request
trace is empty).  The checkSetupOld conjunct records that the older
source file rejects the same clients with ErrClientSetupError. -/
theorem emptyCredentials_failFast (c : Client) (endpoint q : String)
    (httpDo : HttpRequest → Except String RawBody)
    (h : c.APIKey = "" ∨ c.BaseID = "") :
    (∃ msg, (RequestBytes c endpoint q httpDo).err = some (.setup msg) ∧
      (∀ m2, ReqError.setup msg ≠ ReqError.apiRequest m2) ∧
      (∀ m2, ReqError.setup msg ≠ ReqError.httpErr m2)) ∧
    (RequestBytes c endpoint q httpDo).calls = [] ∧
    (RequestBytes c endpoint q httpDo).bytes = none ∧
    ∃ m3, checkSetupOld c = .error m3 := by
  by_cases hB : c.BaseID = ""
  · refine ⟨⟨"airtable: Client missing BaseID", ?_, fun m2 => ?_, fun m2 => ?_⟩,
      ?_, ?_, "Client missing BaseID", ?_⟩
    · simp [RequestBytes, checkSetup, hB]
    · simp
    · simp
    · simp [RequestBytes, checkSetup, hB]
    · simp [RequestBytes, checkSetup, hB]
    · simp [checkSetupOld, hB]
  · have hA : c.APIKey = "" := h.resolve_right hB
    refine ⟨⟨"airtable: Client missing APIKey", ?_, fun m2 => ?_, fun m2 => ?_⟩,
      ?_, ?_, "Client missing APIKey", ?_⟩
    · simp [RequestBytes, checkSetup, hB, hA]
    · simp
    · simp
    · simp [RequestBytes, checkSetup, hB, hA]
    · simp [RequestBytes, checkSetup, hB, hA]
    · simp [checkSetupOld, hB, hA]

/-- Witness for C4 at a concrete client with an empty API key. -/
theorem emptyCredentials_failFast_witness :
    (∃ msg, (RequestBytes ⟨"", "appXXX", "", "", true⟩ "Main" ""
        (fun _ => .error "network unreachable")).err = some (.setup msg) ∧
      (∀ m2, ReqError.setup msg ≠ ReqError.apiRequest m2) ∧
      (∀ m2, ReqError.setup msg ≠ ReqError.httpErr m2)) ∧
    (RequestBytes ⟨"", "appXXX", "", "", true⟩ "Main" ""
      (fun _ => .error "network unreachable")).calls = [] ∧
    (RequestBytes ⟨"", "appXXX", "", "", true⟩ "Main" ""
      (fun _ => .error "network unreachable")).bytes = none ∧
    ∃ m3, checkSetupOld ⟨"", "appXXX", "", "", true⟩ = .error m3 :=
  emptyCredentials_failFast ⟨"", "appXXX", "", "", true⟩ "Main" ""
    (fun _ => .error "network unreachable") (Or.inl rfl)

/-- C3: when the transport round trip succeeds and the body is a JSON
object holding an error envelope with a non-empty error type, the
request operation returns the raw bytes together with the API request
error carrying the envelope message; the error is the API-request
kind, not the JSON decode kind, although the bytes are valid JSON. -/
theorem apiErrorEnvelope_bytesAndRequestError (c c2 : Client)
    (endpoint q : String) (httpDo : HttpRequest → Except String RawBody)
    (kvs e : List (String × Json)) (t msg : String)
    (hsetup : checkSetup c = .ok c2)
    (hbody : ∀ r, httpDo r = .ok (.json (.obj kvs)))
    (herr : lookupObj kvs "error" = some (.obj e))
    (ht : lookupObj e "type" = some (.str t)) (htne : t ≠ "")
    (hm : lookupObj e "message" = some (.str msg)) :
    (RequestBytes c endpoint q httpDo).bytes = some (.json (.obj kvs)) ∧
    (RequestBytes c endpoint q httpDo).err = some (.apiRequest msg) ∧
    ∀ s, some (ReqError.apiRequest msg) ≠ some (ReqError.jsonDecode s) := by
  refine ⟨?_, ?_, fun s => by simp⟩ <;>
    simp [RequestBytes, hsetup, hbody, checkErrorResponse,
      decodeErrorResponse, decodeStringField, herr, ht, hm, htne]

/-- Witness for C3: the INVALID_FILTER scenario of the spec. -/
theorem apiErrorEnvelope_bytesAndRequestError_witness :
    (RequestBytes clientOK "Main" "" (fun _ => .ok (.json (.obj
      [("error", .obj [("type", .str "INVALID_FILTER"),
        ("message", .str "bad filter")])])))).bytes =
      some (.json (.obj [("error", .obj [("type", .str "INVALID_FILTER"),
        ("message", .str "bad filter")])])) ∧
    (RequestBytes clientOK "Main" "" (fun _ => .ok (.json (.obj
      [("error", .obj [("type", .str "INVALID_FILTER"),
        ("message", .str "bad filter")])])))).err =
      some (.apiRequest "bad filter") ∧
    ∀ s, some (ReqError.apiRequest "bad filter") ≠
      some (ReqError.jsonDecode s) :=
  apiErrorEnvelope_bytesAndRequestError clientOK
    ⟨"key123", "appXXX", defaultVersion, defaultRootURL, true⟩ "Main" ""
    (fun _ => .ok (.json (.obj [("error", .obj
      [("type", .str "INVALID_FILTER"), ("message", .str "bad filter")])])))
    [("error", .obj [("type", .str "INVALID_FILTER"),
      ("message", .str "bad filter")])]
    [("type", .str "INVALID_FILTER"), ("message", .str "bad filter")]
    "INVALID_FILTER" "bad filter"
    rfl (fun _ => rfl) rfl rfl (by decide) rfl

/-- Counterexample to C10 as stated: a body of JSON null is valid JSON
and not a JSON object, yet the error envelope probe succeeds on it
(json.Unmarshal of null into a struct leaves the zero value), so the
request operation returns the bytes with no error at all. -/
theorem nullBody_counterexample :
    (RequestBytes clientOK "Main" "" (fun _ => .ok (.json .null))).err =
      none ∧
    (RequestBytes clientOK "Main" "" (fun _ => .ok (.json .null))).bytes =
      some (.json .null) := by
  constructor <;> rfl

/-- C10 amended: for a response body that is valid JSON but neither a
JSON object nor JSON null, the request operation returns the raw bytes
together with the unmarshal failure of the error envelope probe, even
though no envelope is present and the round trip succeeded. -/
theorem nonObjectBody_probeFailure (c c2 : Client) (endpoint q : String)
    (httpDo : HttpRequest → Except String RawBody) (j : Json)
    (hsetup : checkSetup c = .ok c2)
    (hbody : ∀ r, httpDo r = .ok (.json j))
    (hobj : ∀ kvs, j ≠ .obj kvs) (hnull : j ≠ .null) :
    (RequestBytes c endpoint q httpDo).bytes = some (.json j) ∧
    ∃ s, (RequestBytes c endpoint q httpDo).err = some (.jsonDecode s) := by
  cases j with
  | null => exact absurd rfl hnull
  | obj kvs => exact absurd rfl (hobj kvs)
  | bool b =>
    refine ⟨?_, "json: cannot unmarshal value into Go value of type errorResponse",
      ?_⟩ <;> simp [RequestBytes, hsetup, hbody, checkErrorResponse,
        decodeErrorResponse]
  | num n =>
    refine ⟨?_, "json: cannot unmarshal value into Go value of type errorResponse",
      ?_⟩ <;> simp [RequestBytes, hsetup, hbody, checkErrorResponse,
        decodeErrorResponse]
  | str s =>
    refine ⟨?_, "json: cannot unmarshal value into Go value of type errorResponse",
      ?_⟩ <;> simp [RequestBytes, hsetup, hbody, checkErrorResponse,
        decodeErrorResponse]
  | arr xs =>
    refine ⟨?_, "json: cannot unmarshal value into Go value of type errorResponse",
      ?_⟩ <;> simp [RequestBytes, hsetup, hbody, checkErrorResponse,
        decodeErrorResponse]

/-- Witness for the amended C10 at a concrete top-level array body. -/
theorem nonObjectBody_probeFailure_witness :
    (RequestBytes clientOK "Main" ""
      (fun _ => .ok (.json (.arr [])))).bytes = some (.json (.arr [])) ∧
    ∃ s, (RequestBytes clientOK "Main" ""
      (fun _ => .ok (.json (.arr [])))).err = some (.jsonDecode s) :=
  nonObjectBody_probeFailure clientOK
    ⟨"key123", "appXXX", defaultVersion, defaultRootURL, true⟩ "Main" ""
    (fun _ => .ok (.json (.arr []))) (.arr [])
    rfl (fun _ => rfl) (fun _ h => Json.noConfusion h)
    (fun h => Json.noConfusion h)

/-- Counterexample to C9 as stated: a client with an empty version
field (and an empty base identifier) issues its first request, yet the
version field is not set to the default, because the presence checks
of checkSetup fire before any assignment.  The claim quantifies over
every client with an empty version or root URL and so also over this
one. -/
theorem setupDefaults_counterexample :
    (RequestBytes ⟨"key123", "", "", "", true⟩ "Main" ""
      (fun _ => .error "unreachable")).client.Version = "" ∧
    (RequestBytes ⟨"key123", "", "", "", true⟩ "Main" ""
      (fun _ => .error "unreachable")).client.RootURL = "" ∧
    defaultVersion = "v0" ∧ ("" : String) ≠ "v0" := by
  refine ⟨rfl, rfl, rfl, by decide⟩

/-- The client returned by RequestBytes is the client left behind by
checkSetup: updated in place on success, untouched on a setup panic,
and unaffected by anything the HTTP client does. -/
theorem RequestBytes_client (c : Client) (endpoint q : String)
    (httpDo : HttpRequest → Except String RawBody) :
    (RequestBytes c endpoint q httpDo).client =
      match checkSetup c with
      | .error _ => c
      | .ok c2 => c2 := by
  cases h : checkSetup c with
  | error m => simp [RequestBytes, h]
  | ok c2 =>
    simp only [RequestBytes, h]
    split
    · rfl
    · split <;> rfl

/-- C9 amended: for a client that passes the presence checks
(non-empty base identifier and API key, and an HTTP client in the
newer source file), the setup check run by a request sets an empty
version and an empty root URL to the defaults v0 and
https api.airtable.com on the client in place, leaves non-empty ones
alone and never modifies the API key or the base identifier; when a
presence check fails, the request leaves the client entirely
unchanged.  The older source file behaves identically apart from
returning ErrClientSetupError instead of panicking. -/
theorem setupDefaults_amended (c : Client) :
    ((c.BaseID ≠ "" ∧ c.APIKey ≠ "" ∧ c.hasHTTPClient = true) →
      ∃ c2, checkSetup c = .ok c2 ∧
        (∀ endpoint q httpDo,
          (RequestBytes c endpoint q httpDo).client = c2) ∧
        c2.APIKey = c.APIKey ∧ c2.BaseID = c.BaseID ∧
        c2.Version = (if c.Version = "" then defaultVersion else c.Version) ∧
        c2.RootURL = (if c.RootURL = "" then defaultRootURL else c.RootURL) ∧
        c2.hasHTTPClient = c.hasHTTPClient)
    ∧ ((c.BaseID = "" ∨ c.APIKey = "" ∨ c.hasHTTPClient = false) →
        (∀ endpoint q httpDo,
          (RequestBytes c endpoint q httpDo).client = c) ∧
        ∃ m, checkSetup c = .error m)
    ∧ ((c.BaseID ≠ "" ∧ c.APIKey ≠ "") →
      ∃ c2, checkSetupOld c = .ok c2 ∧
        c2.APIKey = c.APIKey ∧ c2.BaseID = c.BaseID ∧
        c2.Version = (if c.Version = "" then defaultVersion else c.Version) ∧
        c2.RootURL = (if c.RootURL = "" then defaultRootURL else c.RootURL)) := by
  refine ⟨?_, ?_, ?_⟩
  · rintro ⟨hB, hA, hH⟩
    have hok : checkSetup c = .ok { c with
        Version := if c.Version = "" then defaultVersion else c.Version,
        RootURL := if c.RootURL = "" then defaultRootURL else c.RootURL } := by
      simp [checkSetup, hB, hA, hH]
    refine ⟨_, hok, ?_, rfl, rfl, rfl, rfl, rfl⟩
    intro endpoint q httpDo
    rw [RequestBytes_client, hok]
  · intro h
    have hfail : ∃ m, checkSetup c = .error m := by
      rcases h with hB | hA | hH
      · exact ⟨"airtable: Client missing BaseID", by simp [checkSetup, hB]⟩
      · by_cases hB : c.BaseID = ""
        · exact ⟨"airtable: Client missing BaseID", by simp [checkSetup, hB]⟩
        · exact ⟨"airtable: Client missing APIKey",
            by simp [checkSetup, hB, hA]⟩
      · by_cases hB : c.BaseID = ""
        · exact ⟨"airtable: Client missing BaseID", by simp [checkSetup, hB]⟩
        · by_cases hA : c.APIKey = ""
          · exact ⟨"airtable: Client missing APIKey",
              by simp [checkSetup, hB, hA]⟩
          · exact ⟨"airtable: missing HTTP client",
              by simp [checkSetup, hB, hA, hH]⟩
    obtain ⟨m, hm⟩ := hfail
    exact ⟨fun endpoint q httpDo => by rw [RequestBytes_client, hm], m, hm⟩
  · rintro ⟨hB, hA⟩
    have hok : checkSetupOld c = .ok { c with
        Version := if c.Version = "" then defaultVersion else c.Version,
        RootURL := if c.RootURL = "" then defaultRootURL else c.RootURL } := by
      simp [checkSetupOld, hB, hA]
    exact ⟨_, hok, rfl, rfl, rfl, rfl⟩

/-- Witness for the amended C9: a fully-credentialed client with empty
version and root URL has them set to the defaults by its first
request, with credentials untouched; and the client missing its base
identifier is left unchanged by a request. -/
theorem setupDefaults_amended_witness :
    (∃ c2, checkSetup clientOK = .ok c2 ∧
      (∀ endpoint q httpDo,
        (RequestBytes clientOK endpoint q httpDo).client = c2) ∧
      c2.APIKey = clientOK.APIKey ∧ c2.BaseID = clientOK.BaseID ∧
      c2.Version = (if clientOK.Version = "" then defaultVersion
        else clientOK.Version) ∧
      c2.RootURL = (if clientOK.RootURL = "" then defaultRootURL
        else clientOK.RootURL) ∧
      c2.hasHTTPClient = clientOK.hasHTTPClient) ∧
    (∀ endpoint q httpDo,
      (RequestBytes ⟨"key123", "", "", "", true⟩ endpoint q httpDo).client =
        ⟨"key123", "", "", "", true⟩) := by
  constructor
  · exact (setupDefaults_amended clientOK).1
      ⟨by decide, by decide, rfl⟩
  · exact ((setupDefaults_amended ⟨"key123", "", "", "", true⟩).2.1
      (Or.inl rfl)).1

/-- A successful Resource.Get maps the envelope fields onto the record
storage held by the resource: the values written are obtained by the
field-mapping loop FROM the record state the resource already holds,
and the updated resource differs from the old one only in that
storage. -/
theorem ResourceGet_ok (r : Resource) (c : Client) (id q : String)
    (httpDo : HttpRequest → Except String RawBody) (resp : GetResponse)
    (h : (Resource.Get r c id q httpDo).out = .ok resp) :
    ∃ vs, mapRecordFields r.shape r.record resp.fields = .ok vs ∧
      (Resource.Get r c id q httpDo).resource = { r with record := vs } := by
  simp only [Resource.Get] at h ⊢
  split at h
  · exact Except.noConfusion h
  · split at h
    · exact Except.noConfusion h
    · exact Except.noConfusion h
    · split at h
      · exact Except.noConfusion h
      · split at h
        · exact Except.noConfusion h
        · rename_i resp2 vs hmap
          cases h
          exact ⟨vs, hmap, rfl⟩

/-- Fixtures for the C8 counterexample: a record shape with two string
fields and a resource holding its zero record. -/
def shapeAB : List Field := [.mk "A" none .strK, .mk "B" none .strK]

/-- The shared resource of the C8 counterexample. -/
def resourceAB : Resource := ⟨"Main", shapeAB, [.str "", .str ""]⟩

/-- First response body: only field A present. -/
def bodyA : RawBody := .json (.obj [("id", .str "rec1"),
  ("fields", .obj [("A", .str "x")]), ("createdTime", .str "t1")])

/-- Second response body: only field B present. -/
def bodyB : RawBody := .json (.obj [("id", .str "rec2"),
  ("fields", .obj [("B", .str "y")]), ("createdTime", .str "t2")])

/-- Counterexample to C8 as stated: two Get calls through the same
client on the same resource write the same record storage.  After a
first call that sets field A and a second call whose response only
contains field B, the second call returns a record that still carries
the first call A value; a Get with its own fresh destination record
would have left A at its zero value.  So the destination storage is
shared between calls, not per-call. -/
theorem sharedRecordStorage_counterexample :
    ((Resource.Get (Resource.Get resourceAB clientOK "rec1" ""
        (fun _ => .ok bodyA)).resource clientOK "rec2" ""
        (fun _ => .ok bodyB)).resource).record =
      [.str "x", .str "y"] ∧
    ((Resource.Get resourceAB clientOK "rec2" ""
        (fun _ => .ok bodyB)).resource).record =
      [.str "", .str "y"] ∧
    Value.str "x" ≠ Value.str "" := by
  refine ⟨?_, ?_, by simp⟩ <;>
    simp [Resource.Get, RequestBytes, checkSetup, clientOK, makeURL,
      checkErrorResponse, decodeErrorResponse, decodeStringField,
      decodeGetResponse, decodeCreated, lookupObj,
      mapRecordFields, dispatchTop, dispatchInner, handleString,
      resolveKey, Field.fromTag, Field.name, Field.kind, zeroValue,
      curFields, resourceAB, shapeAB, bodyA, bodyB, defaultVersion,
      defaultRootURL]

/-- C8 amended: the field mapper writes the record storage held by the
resource, which persists across calls: when two successive Get calls
on the same resource succeed, the first maps the envelope fields onto
the record state the resource held before it, and the second maps onto
the state the first left behind — the two calls write the same record
storage rather than each operating on its own destination record.
The decoded fields map itself is per call. -/
theorem sharedRecordStorage_amended (r : Resource) (c c2 : Client)
    (id1 id2 q1 q2 : String)
    (d1 d2 : HttpRequest → Except String RawBody)
    (resp1 resp2 : GetResponse)
    (h1 : (Resource.Get r c id1 q1 d1).out = .ok resp1)
    (h2 : (Resource.Get (Resource.Get r c id1 q1 d1).resource c2 id2 q2
      d2).out = .ok resp2) :
    ∃ u w, mapRecordFields r.shape r.record resp1.fields = .ok u ∧
      (Resource.Get r c id1 q1 d1).resource.record = u ∧
      mapRecordFields r.shape u resp2.fields = .ok w ∧
      (Resource.Get (Resource.Get r c id1 q1 d1).resource c2 id2 q2
        d2).resource.record = w := by
  obtain ⟨u, hu, hres1⟩ := ResourceGet_ok r c id1 q1 d1 resp1 h1
  obtain ⟨w, hw, hres2⟩ := ResourceGet_ok _ c2 id2 q2 d2 resp2 h2
  rw [hres1] at hw
  exact ⟨u, w, hu, by rw [hres1], hw, by rw [hres2, hres1]⟩

/-- Witness for the amended C8 at the concrete two-call scenario. -/
theorem sharedRecordStorage_amended_witness :
    ∃ u w,
      mapRecordFields resourceAB.shape resourceAB.record
        (GetResponse.mk "rec1" [("A", .str "x")] "t1").fields = .ok u ∧
      (Resource.Get resourceAB clientOK "rec1" ""
        (fun _ => .ok bodyA)).resource.record = u ∧
      mapRecordFields resourceAB.shape u
        (GetResponse.mk "rec2" [("B", .str "y")] "t2").fields = .ok w ∧
      (Resource.Get (Resource.Get resourceAB clientOK "rec1" ""
        (fun _ => .ok bodyA)).resource clientOK "rec2" ""
        (fun _ => .ok bodyB)).resource.record = w :=
  sharedRecordStorage_amended resourceAB clientOK clientOK "rec1" "rec2"
    "" "" (fun _ => .ok bodyA) (fun _ => .ok bodyB)
    ⟨"rec1", [("A", .str "x")], "t1"⟩ ⟨"rec2", [("B", .str "y")], "t2"⟩
    (by simp [Resource.Get, RequestBytes, checkSetup, clientOK, makeURL,
      checkErrorResponse, decodeErrorResponse, decodeStringField,
      decodeGetResponse, decodeCreated, lookupObj,
      mapRecordFields, dispatchTop, dispatchInner, handleString,
      resolveKey, Field.fromTag, Field.name, Field.kind, zeroValue,
      curFields, resourceAB, shapeAB, bodyA, defaultVersion,
      defaultRootURL])
    (by simp [Resource.Get, RequestBytes, checkSetup, clientOK, makeURL,
      checkErrorResponse, decodeErrorResponse, decodeStringField,
      decodeGetResponse, decodeCreated, lookupObj,
      mapRecordFields, dispatchTop, dispatchInner, handleString,
      resolveKey, Field.fromTag, Field.name, Field.kind, zeroValue,
      curFields, resourceAB, shapeAB, bodyA, bodyB, defaultVersion,
      defaultRootURL])

end Airtable
